import Mathlib

/-!
Shallow embedding of `sipnet/connection.go` (package sipnet): the SIP
connection engine — lifecycle, UDP/TCP transport readers, the exclusive
read gate, the write-buffer/flush contract, and the branch dedup cache
with its janitor.

Modelling conventions:
* Bytes are `Nat` values; byte slices are `List Nat`.
* Go channels are modelled as FIFO buffers (`List Msg`, front = next to
  deliver) plus a `closed` flag, matching buffered-channel semantics:
  a send appends at the back; a receive takes the front, yields an
  end-of-stream signal when the buffer is empty and the channel closed,
  and blocks (`Option.none`) when the buffer is empty and the channel open.
* The external parsers `ReadRequest` / `ReadResponse` (not part of this
  file's source) are parameters: pure functions from the byte source to
  `Except Nat Request` / `Except Nat Response` (`Nat` is an opaque error).
* Time is in seconds (`Nat`), network I/O outcomes are explicit
  parameters (`Option Nat` = optional error from the OS write).
-/

/-- An opaque decoded SIP request (payload = the raw bytes it came from). -/
structure Request where
  raw : List Nat
deriving DecidableEq, Repr

/-- An opaque decoded SIP response. -/
structure Response where
  raw : List Nat
deriving DecidableEq, Repr

/-- A decoded unit carried on the inbound message queue: in the Go source
the channel carries an interface value holding a `*Request`, a `*Response`,
or an `error` (a parse error, tagged here with an opaque `Nat` code). -/
inductive Msg where
  | request : Request → Msg
  | response : Response → Msg
  | parseError : Nat → Msg
deriving DecidableEq, Repr

/-- State of a `sipnet.Conn` together with the observable environment it
touches (registry pool entry, transmitted payloads). Field names follow the
Go struct where possible. -/
structure Conn where
  transport : String
  closed : Bool
  locked : Bool
  /-- whether `c.listener != nil` (UDP connections made by a Listener). -/
  hasListener : Bool
  /-- whether the Listener registry `udpPool` still maps this peer address. -/
  inPool : Bool
  /-- number of `delete(c.listener.udpPool, ...)` deregistrations performed. -/
  deregCount : Nat
  /-- whether `close(c.udpReceiver)` has been executed on the raw datagram
  channel feeding `udpReader`. -/
  udpReceiverClosed : Bool
  /-- buffered contents of the `readMessage` channel (inbound message queue). -/
  readMessage : List Msg
  /-- whether the `readMessage` channel has been closed. The Go source never
  executes `close(c.readMessage)` anywhere; this field records that fact. -/
  readMessageClosed : Bool
  /-- contents of `c.writeBuffer` (a `bytes.Buffer`). -/
  writeBuffer : List Nat
  /-- payloads handed to the socket, in order: for UDP each entry is one
  datagram passed to `WriteTo`; for TCP one stream write. -/
  sent : List (List Nat)
  /-- whether `c.conn.Close()` has been called on the TCP stream socket. -/
  tcpSocketClosed : Bool
  /-- timestamp `c.lastMessage` as seconds. -/
  lastMessage : Nat
  /-- table `c.receivedBranches`: branch identifier, last-seen timestamp
  (seconds). -/
  receivedBranches : List (String × Nat)
deriving DecidableEq, Repr

/-- The 2-byte CR LF sequence. -/
def crlf : List Nat := [13, 10]

/-- The 4-byte keep-alive probe CR LF CR LF. -/
def crlfcrlf : List Nat := [13, 10, 13, 10]

/-- The 3 ASCII bytes of `SIP`. -/
def sipBytes : List Nat := [83, 73, 80]

/-- Result of `Conn.Read`: either the end-of-stream signal `io.EOF` or a
message taken off the inbound queue. -/
inductive ReadResult where
  | eof
  | msg : Msg → ReadResult
deriving DecidableEq, Repr

/-- Method `Conn.Read` from the Go source:
if `c.closed`, return `io.EOF`; otherwise receive from `c.readMessage`
(`!more` means the channel was closed and drained: `io.EOF`). `none` means
the call blocks on the empty open channel. -/
def Conn.Read (c : Conn) : Option (ReadResult × Conn) :=
  if c.closed then some (.eof, c)
  else
    match c.readMessage with
    | m :: rest => some (.msg m, { c with readMessage := rest })
    | [] => if c.readMessageClosed then some (.eof, c) else none

/-- The channel-receive part of `Read` alone, for a caller that has already
passed the `c.closed` check and is blocked at `<-c.readMessage`. `none`
means the receive is (still) blocked. -/
def Conn.recvPending (c : Conn) : Option (ReadResult × Conn) :=
  match c.readMessage with
  | m :: rest => some (.msg m, { c with readMessage := rest })
  | [] => if c.readMessageClosed then some (.eof, c) else none

/-- Method `Conn.Lock`. -/
def Conn.Lock (c : Conn) : Conn := { c with locked := true }

/-- Method `Conn.Unlock`. -/
def Conn.Unlock (c : Conn) : Conn := { c with locked := false }

/-- Result of `Conn.Write`: `(len(b), nil)` on success (a `bytes.Buffer`
write never fails), or `io.ErrClosedPipe` when the connection is closed. -/
inductive WriteResult where
  | ok : Nat → WriteResult
  | closedPipe
deriving DecidableEq, Repr

/-- Method `Conn.Write` from the Go source: fail with `io.ErrClosedPipe`
when closed, else append to the write buffer. -/
def Conn.Write (c : Conn) (b : List Nat) : WriteResult × Conn :=
  if c.closed then (.closedPipe, c)
  else (.ok b.length, { c with writeBuffer := c.writeBuffer ++ b })

/-- Result of `Conn.Flush`. -/
inductive FlushResult where
  | ok
  | closedPipe
  | ioError : Nat → FlushResult
deriving DecidableEq, Repr

/-- Method `Conn.Flush` from the Go source: fail with `io.ErrClosedPipe`
when closed; otherwise hand the whole buffer to the socket as one transmission
(UDP: one `WriteTo` datagram; TCP: one stream write), reset the buffer
unconditionally, and return the I/O outcome. `ioErr` is the error, if any,
the OS write reports. -/
def Conn.Flush (c : Conn) (ioErr : Option Nat) : FlushResult × Conn :=
  if c.closed then (.closedPipe, c)
  else
    let c' := { c with writeBuffer := [], sent := c.sent ++ [c.writeBuffer] }
    match ioErr with
    | none => (.ok, c')
    | some e => (.ioError e, c')

/-- Method `Conn.Close` from the Go source: if already closed return `nil`
unchanged; else mark closed, then for UDP delete the registry pool entry
(when a listener exists) and close the raw datagram channel `udpReceiver`,
returning `nil`; for TCP close the stream socket, whose `Close` outcome is
the parameter `tcpCloseErr`. Note: `readMessage` is never closed. -/
def Conn.Close (c : Conn) (tcpCloseErr : Option Nat) : Option Nat × Conn :=
  if c.closed then (none, c)
  else
    let c' := { c with closed := true }
    if c'.transport = "udp" then
      let c'' :=
        if c'.hasListener then
          { c' with inPool := false, deregCount := c'.deregCount + 1 }
        else c'
      (none, { c'' with udpReceiverClosed := true })
    else
      (tcpCloseErr, { c' with tcpSocketClosed := true })

/-- Enqueue one decoded unit on the inbound message queue
(`c.readMessage <- m`, a channel send: appends at the back). -/
def Conn.enqueue (c : Conn) (m : Msg) : Conn :=
  { c with readMessage := c.readMessage ++ [m] }

/-- Outcome of one iteration of the dispatcher loop `Conn.readRequest`. -/
inductive DispatchStep where
  | retEof
  | retErr : Nat → DispatchStep
  | retReq : Request → DispatchStep
  /-- busy-wait iteration of `for c.locked` (sleep 2s, retry). -/
  | sleeping
  /-- blocked at `<-c.readMessage` on an empty open channel. -/
  | blocked
  /-- `continue`: requeued a unit taken while locked, or discarded a response. -/
  | retry
deriving DecidableEq, Repr

/-- One iteration of `Conn.readRequest` from the Go source. The parameter
`lockedAtRecheck` is the value of `c.locked` observed by the re-check after
the channel receive (line `if c.locked` following `msg, more :=
<-c.readMessage`): a concurrent `Lock()`/`Unlock()` between the busy-wait
and that re-check may have changed it, and the resulting state records it.
When the re-check sees locked, the exact unit is sent back on the channel
(`c.readMessage <- msg` — a channel send, hence appended at the BACK of the
queue) and the loop retries. -/
def Conn.readRequestStep (c : Conn) (lockedAtRecheck : Bool) :
    DispatchStep × Conn :=
  if c.closed then (.retEof, c)
  else if c.locked then (.sleeping, c)
  else
    match c.readMessage with
    | [] => if c.readMessageClosed then (.retEof, c) else (.blocked, c)
    | msg :: rest =>
      let c' := { c with readMessage := rest, locked := lockedAtRecheck }
      if c'.locked then (.retry, c'.enqueue msg)
      else
        match msg with
        | .parseError e => (.retErr e, c')
        | .request r => (.retReq r, c')
        | .response _ => (.retry, c')

/-- Drain up to `n` units from the connection through `Conn.Read`, the
sequence a consumer observes. -/
def Conn.drain (c : Conn) : Nat → List Msg
  | 0 => []
  | n + 1 =>
    match c.Read with
    | some (.msg m, c') => m :: c'.drain n
    | _ => []

/-- Outcome of one `udpReader` loop iteration for a received datagram. -/
inductive UdpStepResult where
  /-- keep-alive probe: `c.Write([]byte("\r\n"))` then `continue`. -/
  | keepAlive
  /-- a unit was sent on `c.readMessage`; the loop continues. -/
  | enqueued : Msg → UdpStepResult
  /-- the slice expression `received[:3]` is out of range: the datagram
  is shorter than 3 bytes (runtime panic in Go). -/
  | outOfRange
deriving DecidableEq, Repr

/-- One iteration of `Conn.udpReader` from the Go source, for a datagram
`received` taken off `c.udpReceiver` at time `now`: set `c.lastMessage`;
if the datagram is exactly `\r\n\r\n`, write `\r\n` to the write buffer
(no flush appears in the source) and continue; otherwise classify by
`received[:3]` — out of range when fewer than 3 bytes — decoding the whole
datagram as a Response when the first 3 bytes are `SIP`, else as a Request,
and enqueue the decoded unit or the decode error. -/
def Conn.udpStep (readReq : List Nat → Except Nat Request)
    (readResp : List Nat → Except Nat Response)
    (now : Nat) (c : Conn) (received : List Nat) : UdpStepResult × Conn :=
  let c0 := { c with lastMessage := now }
  if received = crlfcrlf then
    (.keepAlive, (c0.Write crlf).2)
  else if received.length < 3 then
    (.outOfRange, c0)
  else if received.take 3 = sipBytes then
    match readResp received with
    | .error e => (.enqueued (.parseError e), c0.enqueue (.parseError e))
    | .ok r => (.enqueued (.response r), c0.enqueue (.response r))
  else
    match readReq received with
    | .error e => (.enqueued (.parseError e), c0.enqueue (.parseError e))
    | .ok r => (.enqueued (.request r), c0.enqueue (.request r))

/-- Error from the 3-byte sniff read `io.ReadFull(c.conn, buf)`. -/
inductive NetErr where
  | eofErr
  | unexpectedEofErr
  | otherErr : Nat → NetErr
deriving DecidableEq, Repr

/-- Outcome of one `tcpReader` loop iteration. -/
inductive TcpStepResult where
  /-- `c.Close()` was called and the reader returned. -/
  | readerExit
  /-- a unit was sent on `c.readMessage`; the loop continues. -/
  | enqueued : Msg → TcpStepResult
deriving DecidableEq, Repr

/-- One iteration of `Conn.tcpReader` from the Go source: `buf` is the
3-byte sniff buffer after `io.ReadFull` (exactly the first 3 stream bytes
on success, possibly partial contents on error), `sniffErr` its error and
`rest` the remainder of the stream. On `io.EOF` or `io.ErrUnexpectedEOF`
the reader calls `c.Close()` and returns; ANY OTHER error falls through to
the decode step exactly like a successful read. Decoding consumes the
multi-reader `buf ++ rest`, as a Response when `buf = "SIP"`, else as a
Request; errors are enqueued. -/
def Conn.tcpStep (readReq : List Nat → Except Nat Request)
    (readResp : List Nat → Except Nat Response)
    (buf rest : List Nat) (sniffErr : Option NetErr)
    (c : Conn) : TcpStepResult × Conn :=
  match sniffErr with
  | some .eofErr => (.readerExit, (c.Close none).2)
  | some .unexpectedEofErr => (.readerExit, (c.Close none).2)
  | _ =>
    let stream := buf ++ rest
    if buf = sipBytes then
      match readResp stream with
      | .error e => (.enqueued (.parseError e), c.enqueue (.parseError e))
      | .ok r => (.enqueued (.response r), c.enqueue (.response r))
    else
      match readReq stream with
      | .error e => (.enqueued (.parseError e), c.enqueue (.parseError e))
      | .ok r => (.enqueued (.request r), c.enqueue (.request r))

/-- One iteration of `Conn.branchJanitor` from the Go source, ticking at
time `now` after the 10-second sleep: if the connection is closed the
janitor returns (`true`); otherwise, under the branch mutex, every entry
whose last-seen timestamp is more than 30 seconds old is deleted. -/
def Conn.janitorTick (c : Conn) (now : Nat) : Bool × Conn :=
  if c.closed then (true, c)
  else
    (false,
     { c with receivedBranches :=
        c.receivedBranches.filter (fun p => ¬ 30 < now - p.2) })

/-- Run the janitor at each tick time in `ts` (ascending wall-clock times,
10 seconds apart in the real schedule), stopping when it exits. -/
def Conn.janitorRun (c : Conn) : List Nat → Conn
  | [] => c
  | t :: ts =>
    let s := c.janitorTick t
    if s.1 then s.2 else s.2.janitorRun ts

/-- Apply a sequence of `Write` calls in order. -/
def Conn.writeAll (c : Conn) : List (List Nat) → Conn
  | [] => c
  | b :: bs => ((c.Write b).2).writeAll bs

/-- A freshly created open UDP connection made by a Listener, with empty
queues and buffers. -/
def connUdp : Conn :=
  { transport := "udp", closed := false, locked := false, hasListener := true,
    inPool := true, deregCount := 0, udpReceiverClosed := false,
    readMessage := [], readMessageClosed := false, writeBuffer := [],
    sent := [], tcpSocketClosed := false, lastMessage := 0,
    receivedBranches := [] }

/-- A freshly created open TCP connection. -/
def connTcp : Conn :=
  { connUdp with transport := "tcp", hasListener := false, inPool := false }

/-- An open UDP connection holding one branch-table entry inserted at
time 0. -/
def connBranch : Conn :=
  { connUdp with receivedBranches := [("z9hG4bK123", 0)] }

/-- A decoded unit, the first one a transport reader enqueues. -/
def msgA : Msg := .request ⟨[1]⟩

/-- A decoded unit, the second one a transport reader enqueues. -/
def msgB : Msg := .request ⟨[2]⟩

/-- An open UDP connection whose inbound queue holds `msgA` then `msgB`. -/
def connAB : Conn := { connUdp with readMessage := [msgA, msgB] }

/-- An open UDP connection whose inbound queue holds only `msgA`. -/
def connOne : Conn := { connUdp with readMessage := [msgA] }

/-- A parser stand-in that always succeeds, wrapping the raw bytes. -/
def okReq : List Nat → Except Nat Request := fun b => .ok ⟨b⟩

/-- A parser stand-in for responses that always succeeds. -/
def okResp : List Nat → Except Nat Response := fun b => .ok ⟨b⟩

/-- A parser stand-in that always fails with error code 7. -/
def errReq : List Nat → Except Nat Request := fun _ => .error 7

/-- A parser stand-in for responses that always fails with error code 7. -/
def errResp : List Nat → Except Nat Response := fun _ => .error 7

/-- The tagged unit the readers enqueue for a request-path decode outcome. -/
def unitOfReq : Except Nat Request → Msg
  | .error e => .parseError e
  | .ok r => .request r

/-- The tagged unit the readers enqueue for a response-path decode outcome. -/
def unitOfResp : Except Nat Response → Msg
  | .error e => .parseError e
  | .ok r => .response r

theorem Conn.read_closed {d : Conn} (h : d.closed = true) :
    d.Read = some (.eof, d) := by
  simp [Conn.Read, h]

theorem Conn.write_closed {d : Conn} (h : d.closed = true) (b : List Nat) :
    d.Write b = (.closedPipe, d) := by
  simp [Conn.Write, h]

theorem Conn.flush_closed {d : Conn} (h : d.closed = true) (ioe : Option Nat) :
    d.Flush ioe = (.closedPipe, d) := by
  simp [Conn.Flush, h]

theorem Conn.close_closed {d : Conn} (h : d.closed = true) (e : Option Nat) :
    d.Close e = (none, d) := by
  simp [Conn.Close, h]

theorem Conn.close_sets_closed (c : Conn) (e : Option Nat) :
    ((c.Close e).2).closed = true := by
  by_cases h : c.closed
  · simp [Conn.Close, h]
  · by_cases ht : c.transport = "udp" <;> by_cases hl : c.hasListener <;>
      simp [Conn.Close, h, ht, hl]

theorem Conn.flush_open {c : Conn} (h : c.closed = false) (ioe : Option Nat) :
    (c.Flush ioe).2
      = { c with writeBuffer := [], sent := c.sent ++ [c.writeBuffer] } := by
  cases ioe <;> simp [Conn.Flush, h]

theorem Conn.write_open {c : Conn} (h : c.closed = false) (b : List Nat) :
    c.Write b = (.ok b.length, { c with writeBuffer := c.writeBuffer ++ b }) := by
  simp [Conn.Write, h]

theorem Conn.writeAll_open {c : Conn} (h : c.closed = false)
    (bs : List (List Nat)) :
    c.writeAll bs = { c with writeBuffer := c.writeBuffer ++ bs.flatten } := by
  induction bs generalizing c with
  | nil => simp [Conn.writeAll]
  | cons b bs ih =>
    simp only [Conn.writeAll, Conn.write_open h]
    rw [ih (c := { c with writeBuffer := c.writeBuffer ++ b }) h]
    simp

theorem Conn.close_open_udp {c : Conn} (h : c.closed = false)
    (ht : c.transport = "udp") (hl : c.hasListener = true) (e : Option Nat) :
    c.Close e = (none,
      { c with closed := true, inPool := false,
               deregCount := c.deregCount + 1, udpReceiverClosed := true }) := by
  simp [Conn.Close, h, ht, hl]

theorem Conn.close_open_tcp {c : Conn} (h : c.closed = false)
    (ht : ¬ c.transport = "udp") (e : Option Nat) :
    c.Close e = (e, { c with closed := true, tcpSocketClosed := true }) := by
  simp [Conn.Close, h, ht]

theorem Conn.close_open_udp_nl {c : Conn} (h : c.closed = false)
    (ht : c.transport = "udp") (hl : c.hasListener = false) (e : Option Nat) :
    c.Close e = (none, { c with closed := true, udpReceiverClosed := true }) := by
  simp [Conn.Close, h, ht, hl]

theorem Conn.close_keeps_readMessage (c : Conn) (e : Option Nat) :
    ((c.Close e).2).readMessage = c.readMessage ∧
    ((c.Close e).2).readMessageClosed = c.readMessageClosed := by
  by_cases h : c.closed
  · simp [Conn.Close, h]
  · by_cases ht : c.transport = "udp" <;> by_cases hl : c.hasListener <;>
      simp [Conn.Close, h, ht, hl]

theorem Conn.janitorTick_open {c : Conn} (hc : c.closed = false) (now : Nat) :
    c.janitorTick now
      = (false, { c with receivedBranches :=
            c.receivedBranches.filter (fun p => ¬ 30 < now - p.2) }) := by
  simp [Conn.janitorTick, hc]

theorem Conn.janitorRun_cons_open {c : Conn} (hc : c.closed = false)
    (t : Nat) (ts : List Nat) :
    c.janitorRun (t :: ts)
      = ({ c with receivedBranches :=
            c.receivedBranches.filter (fun p => ¬ 30 < t - p.2) }).janitorRun ts := by
  simp [Conn.janitorRun, Conn.janitorTick, hc]

theorem Conn.janitorRun_mem_subset {p : String × Nat} {c : Conn}
    {ts : List Nat} (h : p ∈ (c.janitorRun ts).receivedBranches) :
    p ∈ c.receivedBranches := by
  induction ts generalizing c with
  | nil => simpa [Conn.janitorRun] using h
  | cons t ts ih =>
    by_cases hc : c.closed
    · simpa [Conn.janitorRun, Conn.janitorTick, hc] using h
    · rw [Conn.janitorRun_cons_open (by simpa using hc)] at h
      have h2 := ih h
      rw [List.mem_filter] at h2
      exact h2.1

theorem Conn.janitorRun_removes {b : String} {T : Nat} {c : Conn}
    {ts : List Nat} (hc : c.closed = false) (hex : ∃ t ∈ ts, T + 30 < t) :
    (b, T) ∉ (c.janitorRun ts).receivedBranches := by
  induction ts generalizing c with
  | nil => simp at hex
  | cons t ts ih =>
    rw [Conn.janitorRun_cons_open hc]
    rcases hex with ⟨t', ht', hlt⟩
    rcases List.mem_cons.mp ht' with h1 | h1
    · subst h1
      intro hmem
      have hmem' := Conn.janitorRun_mem_subset hmem
      rw [List.mem_filter] at hmem'
      have := hmem'.2
      simp only [decide_eq_true_eq] at this
      omega
    · exact ih hc ⟨t', h1, hlt⟩

/-- C4: after `Close()` has returned the connection is marked closed, and on
a closed connection every `Read()` returns the end-of-stream signal and every
`Write()`/`Flush()` returns the closed-pipe error; each such call returns the
state unchanged, so this persists over arbitrarily many repeated calls —
three chained calls of `Write` and of `Flush` are spelled out. -/
theorem c4_closed_ops_fail (c : Conn) (e : Option Nat) (b1 b2 b3 : List Nat)
    (io1 io2 io3 : Option Nat) :
    ((c.Close e).2.closed = true) ∧
    (∀ d : Conn, d.closed = true →
      (d.Read = some (.eof, d)) ∧
      (d.Write b1 = (.closedPipe, d) ∧
        ((d.Write b1).2.Write b2).2.Write b3 = (.closedPipe, d)) ∧
      (d.Flush io1 = (.closedPipe, d) ∧
        ((d.Flush io1).2.Flush io2).2.Flush io3 = (.closedPipe, d))) := by
  refine ⟨Conn.close_sets_closed c e, fun d hd => ?_⟩
  simp [Conn.read_closed hd, Conn.write_closed hd, Conn.flush_closed hd]

/-- Witness for C4 at a concrete open UDP connection. -/
theorem c4_closed_ops_fail_witness :
    ((connUdp.Close none).2.closed = true) ∧
      ((connUdp.Close none).2.Read = some (.eof, (connUdp.Close none).2)) := by
  have h := c4_closed_ops_fail connUdp none [1] [2] [3] none none none
  exact ⟨h.1, (h.2 _ h.1).1⟩

/-- C8: `Close()` has its effect exactly once: the first `Close()` on an open
UDP connection with a listener sets the monotonic `closed` flag, removes the
registry pool entry under exactly one deregistration, closes the raw datagram
channel and returns `nil`; every further `Close()` returns `nil` with no
state change at all. -/
theorem c8_close_effect_once (c : Conn) (e1 e2 e3 : Option Nat)
    (hopen : c.closed = false) (hudp : c.transport = "udp")
    (hl : c.hasListener = true) :
    ((c.Close e1).1 = none) ∧
    ((c.Close e1).2.closed = true) ∧
    ((c.Close e1).2.deregCount = c.deregCount + 1) ∧
    ((c.Close e1).2.inPool = false) ∧
    ((c.Close e1).2.udpReceiverClosed = true) ∧
    ((c.Close e1).2.Close e2 = (none, (c.Close e1).2)) ∧
    (((c.Close e1).2.Close e2).2.Close e3 = (none, (c.Close e1).2)) ∧
    (∀ d : Conn, d.closed = true → ∀ e, d.Close e = (none, d)) := by
  have h1 := Conn.close_open_udp hopen hudp hl e1
  have hc1 : (c.Close e1).2.closed = true := Conn.close_sets_closed c e1
  have h2 := Conn.close_closed hc1 e2
  refine ⟨by rw [h1], hc1, by rw [h1], by rw [h1], by rw [h1], h2, ?_,
    fun d hd e => Conn.close_closed hd e⟩
  rw [h2]
  exact Conn.close_closed hc1 e3

/-- Witness for C8 at a concrete freshly opened UDP connection. -/
theorem c8_close_effect_once_witness :
    connUdp.closed = false ∧ connUdp.transport = "udp" ∧
      connUdp.hasListener = true ∧
      (connUdp.Close none).2.deregCount = connUdp.deregCount + 1 ∧
      ((connUdp.Close none).2.Close none = (none, (connUdp.Close none).2)) :=
  ⟨rfl, rfl, rfl,
    (c8_close_effect_once connUdp none none none rfl rfl rfl).2.2.1,
    (c8_close_effect_once connUdp none none none rfl rfl rfl).2.2.2.2.2.1⟩

/-- C5: on an open UDP connection whose write buffer was left empty by the
previous flush or reset, any sequence of `Write` calls followed by one
`Flush` hands exactly one datagram to the socket, whose payload is the
concatenation of the written slices in order; the buffer is reset regardless
of the I/O outcome, so a following `Flush` transmits the empty payload and
never the old bytes again. -/
theorem c5_flush_single_concat_datagram (c : Conn) (bs : List (List Nat))
    (ioe ioe2 : Option Nat) (hopen : c.closed = false)
    (hudp : c.transport = "udp") (hbuf : c.writeBuffer = []) :
    (((c.writeAll bs).Flush ioe).2.sent = c.sent ++ [bs.flatten]) ∧
    (((c.writeAll bs).Flush ioe).2.writeBuffer = []) ∧
    ((((c.writeAll bs).Flush ioe).2.Flush ioe2).2.sent
        = c.sent ++ [bs.flatten] ++ [[]]) := by
  have hw : c.writeAll bs = { c with writeBuffer := bs.flatten } := by
    rw [Conn.writeAll_open hopen, hbuf]
    simp
  have h1 : ((c.writeAll bs).Flush ioe).2
      = { c with writeBuffer := [], sent := c.sent ++ [bs.flatten] } := by
    rw [hw, Conn.flush_open
      (c := { c with writeBuffer := bs.flatten }) hopen ioe]
  have h2 : ((((c.writeAll bs).Flush ioe).2).Flush ioe2).2
      = { c with writeBuffer := [],
                 sent := c.sent ++ [bs.flatten] ++ [[]] } := by
    rw [h1, Conn.flush_open
      (c := { c with writeBuffer := [], sent := c.sent ++ [bs.flatten] })
      hopen ioe2]
  exact ⟨by rw [h1], by rw [h1], by rw [h2]⟩

/-- Witness for C5: three writes `A`, `B`, `C` then one failing flush on a
fresh UDP connection send the single datagram `ABC`. -/
theorem c5_flush_single_concat_datagram_witness :
    connUdp.closed = false ∧ connUdp.transport = "udp" ∧
      connUdp.writeBuffer = [] ∧
      ((connUdp.writeAll [[65], [66], [67]]).Flush (some 3)).2.sent
        = connUdp.sent ++ [[[65], [66], [67]].flatten] :=
  ⟨rfl, rfl, rfl,
    (c5_flush_single_concat_datagram connUdp [[65], [66], [67]] (some 3) none
      rfl rfl rfl).1⟩

/-- C7: a branch entry last seen at time `T` survives every janitor tick at
or before `T + 30` seconds; an open-connection tick removes exactly the
entries whose last-seen timestamp is more than 30 seconds old; a tick on a
closed connection exits with no change; and a janitor run whose tick times
include one later than `T + 30` leaves the entry absent. -/
theorem c7_branch_janitor (c : Conn) (b : String) (T : Nat) (ts : List Nat)
    (hopen : c.closed = false) (hmem : (b, T) ∈ c.receivedBranches)
    (hlate : ∃ t ∈ ts, T + 30 < t) :
    (∀ now, now ≤ T + 30 → (b, T) ∈ ((c.janitorTick now).2).receivedBranches) ∧
    (∀ now (p : String × Nat),
        p ∈ ((c.janitorTick now).2).receivedBranches ↔
          p ∈ c.receivedBranches ∧ now - p.2 ≤ 30) ∧
    (∀ d : Conn, d.closed = true → ∀ now, d.janitorTick now = (true, d)) ∧
    ((b, T) ∉ (c.janitorRun ts).receivedBranches) := by
  refine ⟨?_, ?_, ?_, Conn.janitorRun_removes hopen hlate⟩
  · intro now hle
    rw [Conn.janitorTick_open hopen]
    simp only [List.mem_filter, decide_eq_true_eq]
    exact ⟨hmem, by omega⟩
  · intro now p
    rw [Conn.janitorTick_open hopen]
    simp only [List.mem_filter, decide_eq_true_eq]
    constructor
    · rintro ⟨h1, h2⟩; exact ⟨h1, by omega⟩
    · rintro ⟨h1, h2⟩; exact ⟨h1, by omega⟩
  · intro d hd now
    simp [Conn.janitorTick, hd]

/-- Witness for C7: branch `z9hG4bK123` inserted at `T = 0` is still present
after a tick at 29 seconds and absent after the janitor runs at 10, 20, 30
and 41 seconds. -/
theorem c7_branch_janitor_witness :
    connBranch.closed = false ∧
      ("z9hG4bK123", 0) ∈ connBranch.receivedBranches ∧
      (∃ t ∈ [10, 20, 30, 41], 0 + 30 < t) ∧
      ("z9hG4bK123", 0) ∈ ((connBranch.janitorTick 29).2).receivedBranches ∧
      ("z9hG4bK123", 0) ∉ (connBranch.janitorRun [10, 20, 30, 41]).receivedBranches := by
  have h := c7_branch_janitor connBranch "z9hG4bK123" 0 [10, 20, 30, 41] rfl
    (by simp [connBranch, connUdp]) (by simp)
  exact ⟨rfl, by simp [connBranch, connUdp], by simp,
    h.1 29 (by omega), h.2.2.2⟩

/-- C10: a non-keep-alive datagram shorter than 3 bytes makes the slice
expression `received[:3]` in `udpReader` go out of range — the embedding's
error branch is reached — whatever the parsers and the connection state. -/
theorem c10_short_datagram_out_of_range :
    ∃ received : List Nat, received.length < 3 ∧ received ≠ crlfcrlf ∧
      ∀ (readReq : List Nat → Except Nat Request)
        (readResp : List Nat → Except Nat Response) (now : Nat) (c : Conn),
        (Conn.udpStep readReq readResp now c received).1 = .outOfRange :=
  ⟨[65], by decide, by decide, fun readReq readResp now c => rfl⟩

/-- C3: the UDP reader treats the 4-byte datagram CR LF CR LF as a
keep-alive probe: nothing is enqueued on the inbound queue, and — this is
the code bug the claim exposes — the 2-byte CR LF reply is only appended to
the write buffer; `udpReader` has no `Flush` call, so no reply datagram is
handed to the socket. -/
theorem c3_keepalive_buffered_not_sent :
    ((Conn.udpStep okReq okResp 5 connUdp crlfcrlf).1 = .keepAlive) ∧
    ((Conn.udpStep okReq okResp 5 connUdp crlfcrlf).2.readMessage = []) ∧
    ((Conn.udpStep okReq okResp 5 connUdp crlfcrlf).2.writeBuffer = crlf) ∧
    ((Conn.udpStep okReq okResp 5 connUdp crlfcrlf).2.sent = []) :=
  ⟨rfl, rfl, rfl, rfl⟩

/-- C1 counterexample: on a fresh open UDP connection with an empty inbound
message queue, `Close()` does NOT close the inbound message queue
`readMessage` — its channel-closed flag stays `false`, so a `Read()` that
was already blocked on that queue when `Close()` ran stays blocked
(`recvPending = none`) instead of receiving the end-of-stream signal; only
the raw datagram channel `udpReceiver` is closed. -/
theorem c1_blocked_read_stays_blocked :
    ((connUdp.Close none).2.readMessageClosed = false) ∧
    ((connUdp.Close none).2.recvPending = none) ∧
    ((connUdp.Close none).2.udpReceiverClosed = true) :=
  ⟨rfl, rfl, rfl⟩

/-- C1 (amended): `Close()` on an open connection marks it closed; for UDP
it closes the raw datagram channel `udpReceiver` (making the UDP reader
exit) and for TCP it closes the stream socket; the inbound message queue
`readMessage` and its closed flag are untouched. Consequently every `Read()`
invoked after `Close()` returns the end-of-stream signal via the closed
flag, while a receive already blocked on the empty inbound queue is not
unblocked. -/
theorem c1_close_marks_closed_later_reads_eof (c : Conn) (e : Option Nat)
    (hopen : c.closed = false) :
    ((c.Close e).2.closed = true) ∧
    (c.transport = "udp" → (c.Close e).2.udpReceiverClosed = true) ∧
    (¬ c.transport = "udp" → (c.Close e).2.tcpSocketClosed = true) ∧
    ((c.Close e).2.readMessage = c.readMessage) ∧
    ((c.Close e).2.readMessageClosed = c.readMessageClosed) ∧
    ((c.Close e).2.Read = some (.eof, (c.Close e).2)) ∧
    (c.readMessage = [] → c.readMessageClosed = false →
      (c.Close e).2.recvPending = none) := by
  have hc := Conn.close_sets_closed c e
  have hk := Conn.close_keeps_readMessage c e
  refine ⟨hc, ?_, ?_, hk.1, hk.2, Conn.read_closed hc, ?_⟩
  · intro ht
    by_cases hl : c.hasListener
    · rw [Conn.close_open_udp hopen ht hl]
    · rw [Conn.close_open_udp_nl hopen ht (by simpa using hl)]
  · intro ht
    rw [Conn.close_open_tcp hopen ht]
  · intro hq hqc
    simp [Conn.recvPending, hk.1, hk.2, hq, hqc]

/-- Witness for C1 (amended) at a concrete open UDP connection. -/
theorem c1_close_marks_closed_later_reads_eof_witness :
    connUdp.closed = false ∧
      ((connUdp.Close none).2.closed = true) ∧
      ((connUdp.Close none).2.Read = some (.eof, (connUdp.Close none).2)) :=
  ⟨rfl, (c1_close_marks_closed_later_reads_eof connUdp none rfl).1,
    (c1_close_marks_closed_later_reads_eof connUdp none rfl).2.2.2.2.2.1⟩

/-- C2 counterexample: with units `msgA`, `msgB` enqueued in that order and
the gate becoming locked between the dispatcher's dequeue of `msgA` and its
re-check, the requeue `c.readMessage <- msg` is a channel send, which
appends `msgA` at the BACK of the queue: the queue becomes `[msgB, msgA]`
and the locked consumer draining it observes `msgB` then `msgA` — not the
order in which the transport reader enqueued them. -/
theorem c2_requeue_reorders :
    ((connAB.readRequestStep true).1 = .retry) ∧
    ((connAB.readRequestStep true).2.readMessage = [msgB, msgA]) ∧
    ((connAB.readRequestStep true).2.drain 2 = [msgB, msgA]) ∧
    ([msgB, msgA] ≠ [msgA, msgB]) :=
  ⟨rfl, rfl, rfl, by decide⟩

/-- C2 (amended): when the dispatcher dequeues a unit while the gate is
locked, it re-enqueues that exact unit before retrying, so no unit is lost
or duplicated — the queue after the requeue is a permutation of the queue
before — but the requeue appends at the back of the queue, so the enqueue
order is preserved exactly when the queue held no other unit; with other
queued units the requeued unit is delivered after them. -/
theorem c2_requeue_exact_unit_no_loss (c : Conn) (m : Msg) (rest : List Msg)
    (hopen : c.closed = false) (hnl : c.locked = false)
    (hq : c.readMessage = m :: rest) :
    ((c.readRequestStep true).1 = .retry) ∧
    ((c.readRequestStep true).2.readMessage = rest ++ [m]) ∧
    (((c.readRequestStep true).2.readMessage).Perm c.readMessage) ∧
    (rest = [] → (c.readRequestStep true).2.readMessage = c.readMessage) := by
  have h1 : c.readRequestStep true
      = (.retry, { c with readMessage := rest ++ [m], locked := true }) := by
    simp [Conn.readRequestStep, hopen, hnl, hq, Conn.enqueue]
  rw [h1, hq]
  refine ⟨rfl, rfl, List.perm_append_singleton m rest, ?_⟩
  rintro rfl
  rfl

/-- Witness for C2 (amended): with a single queued unit the requeue leaves
the queue in the original order. -/
theorem c2_requeue_exact_unit_no_loss_witness :
    connOne.closed = false ∧ connOne.locked = false ∧
      connOne.readMessage = msgA :: [] ∧
      ((connOne.readRequestStep true).2.readMessage = [] ++ [msgA]) :=
  ⟨rfl, rfl, rfl,
    (c2_requeue_exact_unit_no_loss connOne msgA [] rfl rfl rfl).2.1⟩

/-- C6 counterexample: a sniff-read failure that is neither `io.EOF` nor
`io.ErrUnexpectedEOF` is NOT terminal: with such an error `tcpReader` falls
through, decodes `buf ++ rest` — here enqueueing a parse error — and the
connection stays open, so not every read failure at the sniff step stops the
reader. -/
theorem c6_other_error_not_terminal :
    ((Conn.tcpStep errReq errResp [0, 0, 0] [] (some (.otherErr 9)) connTcp).1
        = .enqueued (.parseError 7)) ∧
    ((Conn.tcpStep errReq errResp [0, 0, 0] [] (some (.otherErr 9))
        connTcp).2.closed = false) ∧
    ((Conn.tcpStep errReq errResp [0, 0, 0] [] (some (.otherErr 9))
        connTcp).2.readMessage = [.parseError 7]) :=
  ⟨rfl, rfl, rfl⟩

/-- C6 (amended): when the 3-byte sniff read fails with a clean or
unexpected end-of-stream, `tcpReader` calls `Close()` and exits; any other
read failure is NOT terminal — the reader falls through to the decode step
exactly like a successful read, leaving the closed flag untouched. -/
theorem c6_eof_terminal_other_errors_fall_through
    (readReq : List Nat → Except Nat Request)
    (readResp : List Nat → Except Nat Response)
    (buf rest : List Nat) (c : Conn) (e : Nat) :
    (Conn.tcpStep readReq readResp buf rest (some .eofErr) c
        = (.readerExit, (c.Close none).2)) ∧
    (Conn.tcpStep readReq readResp buf rest (some .unexpectedEofErr) c
        = (.readerExit, (c.Close none).2)) ∧
    ((Conn.tcpStep readReq readResp buf rest (some .eofErr) c).2.closed
        = true) ∧
    ((Conn.tcpStep readReq readResp buf rest (some (.otherErr e)) c).1
        ≠ .readerExit) ∧
    ((Conn.tcpStep readReq readResp buf rest (some (.otherErr e)) c).2.closed
        = c.closed) := by
  refine ⟨rfl, rfl, Conn.close_sets_closed c none, ?_, ?_⟩
  · simp only [Conn.tcpStep]
    by_cases hb : buf = sipBytes
    · rw [if_pos hb]
      cases readResp (buf ++ rest) <;> simp
    · rw [if_neg hb]
      cases readReq (buf ++ rest) <;> simp
  · simp only [Conn.tcpStep]
    by_cases hb : buf = sipBytes
    · rw [if_pos hb]
      cases readResp (buf ++ rest) <;> rfl
    · rw [if_neg hb]
      cases readReq (buf ++ rest) <;> rfl

/-- Witness for C6 (amended) at concrete inputs: a clean end-of-stream
closes and exits, a different error does not exit the reader. -/
theorem c6_eof_terminal_other_errors_fall_through_witness :
    (Conn.tcpStep errReq errResp [0, 0, 0] [] (some .eofErr) connTcp
        = (.readerExit, (connTcp.Close none).2)) ∧
    ((Conn.tcpStep errReq errResp [0, 0, 0] [] (some (.otherErr 9)) connTcp).1
        ≠ .readerExit) := by
  have h := c6_eof_terminal_other_errors_fall_through errReq errResp
      [0, 0, 0] [] connTcp 9
  exact ⟨h.1, h.2.2.2.1⟩

/-- C9: for both transports the type discrimination is purely the 3-byte
sniff: first three bytes `SIP` selects the Response parser, anything else
the Request parser; the parser outcome — success or decode failure — is
enqueued on the inbound queue as exactly one tagged unit (`unitOfResp` and
`unitOfReq` map a failure to a ParseError unit), so failures are not
dropped, and the step keeps processing (its result is an `enqueued`
continuation). -/
theorem c9_sip_sniff_discrimination
    (readReq : List Nat → Except Nat Request)
    (readResp : List Nat → Except Nat Response)
    (now : Nat) (c : Conn) (d buf rest : List Nat)
    (hlen : 3 ≤ d.length) (hka : d ≠ crlfcrlf) :
    ((Conn.udpStep readReq readResp now c d).1
        = .enqueued (if d.take 3 = sipBytes then unitOfResp (readResp d)
                     else unitOfReq (readReq d))) ∧
    ((Conn.udpStep readReq readResp now c d).2.readMessage
        = c.readMessage ++ [if d.take 3 = sipBytes then unitOfResp (readResp d)
                            else unitOfReq (readReq d)]) ∧
    ((Conn.tcpStep readReq readResp buf rest none c).1
        = .enqueued (if buf = sipBytes then unitOfResp (readResp (buf ++ rest))
                     else unitOfReq (readReq (buf ++ rest)))) ∧
    ((Conn.tcpStep readReq readResp buf rest none c).2.readMessage
        = c.readMessage ++ [if buf = sipBytes
                            then unitOfResp (readResp (buf ++ rest))
                            else unitOfReq (readReq (buf ++ rest))]) := by
  have hlen' : ¬ d.length < 3 := by omega
  refine ⟨?_, ?_, ?_, ?_⟩
  · simp only [Conn.udpStep, if_neg hka, if_neg hlen']
    by_cases hs : d.take 3 = sipBytes
    · rw [if_pos hs, if_pos hs]
      cases readResp d <;> simp [unitOfResp]
    · rw [if_neg hs, if_neg hs]
      cases readReq d <;> simp [unitOfReq]
  · simp only [Conn.udpStep, if_neg hka, if_neg hlen']
    by_cases hs : d.take 3 = sipBytes
    · rw [if_pos hs, if_pos hs]
      cases readResp d <;> simp [unitOfResp, Conn.enqueue]
    · rw [if_neg hs, if_neg hs]
      cases readReq d <;> simp [unitOfReq, Conn.enqueue]
  · simp only [Conn.tcpStep]
    by_cases hb : buf = sipBytes
    · rw [if_pos hb, if_pos hb]
      cases readResp (buf ++ rest) <;> simp [unitOfResp]
    · rw [if_neg hb, if_neg hb]
      cases readReq (buf ++ rest) <;> simp [unitOfReq]
  · simp only [Conn.tcpStep]
    by_cases hb : buf = sipBytes
    · rw [if_pos hb, if_pos hb]
      cases readResp (buf ++ rest) <;> simp [unitOfResp, Conn.enqueue]
    · rw [if_neg hb, if_neg hb]
      cases readReq (buf ++ rest) <;> simp [unitOfReq, Conn.enqueue]

/-- Witness for C9: the datagram `SIP` CR LF goes down the Response path
(here a successful decode), and the TCP sniff `INV` goes down the Request
path (here a decode failure enqueued as a ParseError). -/
theorem c9_sip_sniff_discrimination_witness :
    (3 ≤ ([83, 73, 80, 13, 10] : List Nat).length) ∧
    (([83, 73, 80, 13, 10] : List Nat) ≠ crlfcrlf) ∧
    ((Conn.udpStep errReq okResp 0 connUdp [83, 73, 80, 13, 10]).2.readMessage
        = connUdp.readMessage ++ [Msg.response ⟨[83, 73, 80, 13, 10]⟩]) ∧
    ((Conn.tcpStep errReq okResp [73, 78, 86] [] none connUdp).2.readMessage
        = connUdp.readMessage ++ [Msg.parseError 7]) := by
  have h := c9_sip_sniff_discrimination errReq okResp 0 connUdp
      [83, 73, 80, 13, 10] [73, 78, 86] [] (by decide) (by decide)
  exact ⟨by decide, by decide, h.2.1, h.2.2.2⟩
